import Mathlib

/-!
Verification development for the storytel-dl repository.

Shallow embedding of the Python modules under scrutiny:
`src/crypto_utils.py`, `audio_extractor/chapters.py`, `src/main.py`,
`generate_audiobook.py`, `src/storytel_api.py`, `src/audio_utils.py`,
`src/metadata.py`.  Every definition is translated from the source file
named in its doc comment; theorems settle the frozen claims C1-C10.

Conventions: Python byte strings and byte buffers are `List Nat` (each
entry < 256); Python `float` chapter times are modelled as `ℚ` (the
inputs appearing in the claims are exactly representable, so IEEE
rounding plays no role); Python `dict.get` with absent keys is `Option`.
-/

namespace StorytelDL

/-! ### crypto_utils.py -/

namespace Crypto

/-- Bitwise xor computed on the low `k` bits; operands here are bytes or
GF(2^8) values, so `k = 8` suffices.  Models the xor inside the external
AES primitive (pycryptodome), which `encrypt_password` drives. -/
def xorBits : Nat → Nat → Nat → Nat
  | 0, _, _ => 0
  | k + 1, a, b => (a + b) % 2 + 2 * xorBits k (a / 2) (b / 2)

/-- Byte xor. -/
def bxor (a b : Nat) : Nat := xorBits 8 a b

/-- The AES forward S-box (FIPS-197 Figure 7). -/
def sbox : List Nat := [
  0x63, 0x7c, 0x77, 0x7b, 0xf2, 0x6b, 0x6f, 0xc5, 0x30, 0x01, 0x67, 0x2b, 0xfe, 0xd7, 0xab, 0x76,
  0xca, 0x82, 0xc9, 0x7d, 0xfa, 0x59, 0x47, 0xf0, 0xad, 0xd4, 0xa2, 0xaf, 0x9c, 0xa4, 0x72, 0xc0,
  0xb7, 0xfd, 0x93, 0x26, 0x36, 0x3f, 0xf7, 0xcc, 0x34, 0xa5, 0xe5, 0xf1, 0x71, 0xd8, 0x31, 0x15,
  0x04, 0xc7, 0x23, 0xc3, 0x18, 0x96, 0x05, 0x9a, 0x07, 0x12, 0x80, 0xe2, 0xeb, 0x27, 0xb2, 0x75,
  0x09, 0x83, 0x2c, 0x1a, 0x1b, 0x6e, 0x5a, 0xa0, 0x52, 0x3b, 0xd6, 0xb3, 0x29, 0xe3, 0x2f, 0x84,
  0x53, 0xd1, 0x00, 0xed, 0x20, 0xfc, 0xb1, 0x5b, 0x6a, 0xcb, 0xbe, 0x39, 0x4a, 0x4c, 0x58, 0xcf,
  0xd0, 0xef, 0xaa, 0xfb, 0x43, 0x4d, 0x33, 0x85, 0x45, 0xf9, 0x02, 0x7f, 0x50, 0x3c, 0x9f, 0xa8,
  0x51, 0xa3, 0x40, 0x8f, 0x92, 0x9d, 0x38, 0xf5, 0xbc, 0xb6, 0xda, 0x21, 0x10, 0xff, 0xf3, 0xd2,
  0xcd, 0x0c, 0x13, 0xec, 0x5f, 0x97, 0x44, 0x17, 0xc4, 0xa7, 0x7e, 0x3d, 0x64, 0x5d, 0x19, 0x73,
  0x60, 0x81, 0x4f, 0xdc, 0x22, 0x2a, 0x90, 0x88, 0x46, 0xee, 0xb8, 0x14, 0xde, 0x5e, 0x0b, 0xdb,
  0xe0, 0x32, 0x3a, 0x0a, 0x49, 0x06, 0x24, 0x5c, 0xc2, 0xd3, 0xac, 0x62, 0x91, 0x95, 0xe4, 0x79,
  0xe7, 0xc8, 0x37, 0x6d, 0x8d, 0xd5, 0x4e, 0xa9, 0x6c, 0x56, 0xf4, 0xea, 0x65, 0x7a, 0xae, 0x08,
  0xba, 0x78, 0x25, 0x2e, 0x1c, 0xa6, 0xb4, 0xc6, 0xe8, 0xdd, 0x74, 0x1f, 0x4b, 0xbd, 0x8b, 0x8a,
  0x70, 0x3e, 0xb5, 0x66, 0x48, 0x03, 0xf6, 0x0e, 0x61, 0x35, 0x57, 0xb9, 0x86, 0xc1, 0x1d, 0x9e,
  0xe1, 0xf8, 0x98, 0x11, 0x69, 0xd9, 0x8e, 0x94, 0x9b, 0x1e, 0x87, 0xe9, 0xce, 0x55, 0x28, 0xdf,
  0x8c, 0xa1, 0x89, 0x0d, 0xbf, 0xe6, 0x42, 0x68, 0x41, 0x99, 0x2d, 0x0f, 0xb0, 0x54, 0xbb, 0x16]

/-- S-box lookup. -/
def sboxAt (i : Nat) : Nat := sbox.getD i 0

/-- Multiplication by x in GF(2^8) with the AES reduction polynomial. -/
def xtime (a : Nat) : Nat := if a < 128 then 2 * a else bxor (2 * a % 256) 0x1b

/-- Multiplication by 3 in GF(2^8). -/
def mul3 (a : Nat) : Nat := bxor (xtime a) a

/-- Byte-wise xor of two equal-length byte lists. -/
def xorBytes (w1 w2 : List Nat) : List Nat := List.zipWith bxor w1 w2

/-- Rotate a 4-byte word left by one byte (AES RotWord). -/
def rotWord : List Nat → List Nat
  | a :: rest => rest ++ [a]
  | [] => []

/-- Apply the S-box to each byte of a word (AES SubWord). -/
def subWord (w : List Nat) : List Nat := w.map sboxAt

/-- AES round constants for AES-128 key expansion, 1-indexed. -/
def rconAt (i : Nat) : Nat :=
  [0x01, 0x02, 0x04, 0x08, 0x10, 0x20, 0x40, 0x80, 0x1b, 0x36].getD (i - 1) 0

/-- AES-128 key expansion: the 44 four-byte words of FIPS-197 section 5.2. -/
def keyWords (key : List Nat) : List (List Nat) :=
  let w0 := [key.take 4, (key.drop 4).take 4, (key.drop 8).take 4, (key.drop 12).take 4]
  (List.range 40).foldl (fun ws j =>
    let i := j + 4
    let temp := ws.getD (i - 1) []
    let temp := if i % 4 = 0 then xorBytes (subWord (rotWord temp)) [rconAt (i / 4), 0, 0, 0]
               else temp
    ws ++ [xorBytes (ws.getD (i - 4) []) temp]) w0

/-- The 16-byte round key for round `r` (words `4r..4r+3` flattened; the
flat byte order coincides with the column-major state order). -/
def roundKey (ws : List (List Nat)) (r : Nat) : List Nat :=
  ws.getD (4 * r) [] ++ ws.getD (4 * r + 1) [] ++ ws.getD (4 * r + 2) [] ++ ws.getD (4 * r + 3) []

/-- AddRoundKey on the flat 16-byte state. -/
def addRoundKey (s k : List Nat) : List Nat := xorBytes s k

/-- SubBytes on the flat 16-byte state. -/
def subBytes (s : List Nat) : List Nat := s.map sboxAt

/-- ShiftRows on the flat (column-major) 16-byte state: the byte at row
`r`, column `c` comes from row `r`, column `(c + r) mod 4`. -/
def shiftRows (s : List Nat) : List Nat :=
  (List.range 16).map (fun i =>
    let r := i % 4
    let c := i / 4
    s.getD (4 * ((c + r) % 4) + r) 0)

/-- MixColumns on a single 4-byte column. -/
def mixColumn (a : List Nat) : List Nat :=
  match a with
  | [a0, a1, a2, a3] =>
    [bxor (bxor (xtime a0) (mul3 a1)) (bxor a2 a3),
     bxor (bxor a0 (xtime a1)) (bxor (mul3 a2) a3),
     bxor (bxor a0 a1) (bxor (xtime a2) (mul3 a3)),
     bxor (bxor (mul3 a0) a1) (bxor a2 (xtime a3))]
  | other => other

/-- MixColumns on the flat 16-byte state. -/
def mixColumns (s : List Nat) : List Nat :=
  mixColumn (s.take 4) ++ mixColumn ((s.drop 4).take 4) ++
    mixColumn ((s.drop 8).take 4) ++ mixColumn (s.drop 12)

/-- AES-128 single-block encryption (FIPS-197 Cipher): initial
AddRoundKey, nine full rounds, and a final round without MixColumns. -/
def aesEncryptBlock (key block : List Nat) : List Nat :=
  let ws := keyWords key
  let s0 := addRoundKey block (roundKey ws 0)
  let s9 := (List.range 9).foldl
    (fun s r => addRoundKey (mixColumns (shiftRows (subBytes s))) (roundKey ws (r + 1))) s0
  addRoundKey (shiftRows (subBytes s9)) (roundKey ws 10)

/-- CBC-mode chaining over successive 16-byte blocks (fuel-driven so the
kernel can evaluate it; the fuel is the data length, ample since each
step consumes 16 bytes). -/
def cbcBlocks : Nat → List Nat → List Nat → List Nat → List Nat
  | 0, _, _, _ => []
  | _, _, _, [] => []
  | fuel + 1, key, prev, data =>
    let block := data.take 16
    let c := aesEncryptBlock key (xorBytes prev block)
    c ++ cbcBlocks fuel key c (data.drop 16)

/-- AES-CBC encryption of a (padded) byte string under `key` and `iv`.
Models `AES.new(KEY, AES.MODE_CBC, IV)` followed by `cipher.encrypt`. -/
def cbcEncrypt (key iv data : List Nat) : List Nat := cbcBlocks data.length key iv data

/-- PKCS#7 padding to the 16-byte AES block size.  Models
`Crypto.Util.Padding.pad(data, AES.block_size)`. -/
def pkcs7Pad (data : List Nat) : List Nat :=
  let padLen := 16 - data.length % 16
  data ++ List.replicate padLen padLen

/-- The lowercase hexadecimal digit for `n < 16` — `0`-`9` then `a`-`f`,
as Python `bytes.hex()` renders them. -/
def hexDigitChar (n : Nat) : Char :=
  if n < 10 then Char.ofNat (48 + n) else Char.ofNat (87 + n)

/-- Two lowercase hex digits for one byte. -/
def byteToHex (b : Nat) : List Char := [hexDigitChar (b / 16), hexDigitChar (b % 16)]

/-- Lowercase hex encoding of a byte string.  Models Python `bytes.hex()`. -/
def bytesToHex (bs : List Nat) : String :=
  String.mk (bs.foldr (fun b acc => byteToHex b ++ acc) [])

/-- UTF-8 encoding of a single code point. -/
def utf8EncodeChar (c : Char) : List Nat :=
  let n := c.toNat
  if n < 0x80 then [n]
  else if n < 0x800 then [0xc0 + n / 64, 0x80 + n % 64]
  else if n < 0x10000 then [0xe0 + n / 4096, 0x80 + n / 64 % 64, 0x80 + n % 64]
  else [0xf0 + n / 262144, 0x80 + n / 4096 % 64, 0x80 + n / 64 % 64, 0x80 + n % 64]

/-- UTF-8 encoding of a string.  Models Python `str.encode("utf-8")`. -/
def utf8Encode (s : String) : List Nat :=
  s.data.foldr (fun c acc => utf8EncodeChar c ++ acc) []

/-- crypto_utils.py line 6: the fixed 16-byte key `b"VQZBJ6TD8M9WBUWT"`. -/
def KEY : List Nat := utf8Encode "VQZBJ6TD8M9WBUWT"

/-- crypto_utils.py line 7: the fixed 16-byte IV `b"joiwef08u23j341a"`. -/
def IV : List Nat := utf8Encode "joiwef08u23j341a"

/-- crypto_utils.py lines 9-27, `encrypt_password`: pad the UTF-8 bytes
of the password with PKCS#7, encrypt with AES-128-CBC under the fixed
key and IV, and return the lowercase hex encoding. -/
def encrypt_password (password : String) : String :=
  let padded := pkcs7Pad (utf8Encode password)
  let encrypted := cbcEncrypt KEY IV padded
  bytesToHex encrypted

end Crypto

/-! ### audio_extractor/chapters.py -/

namespace Chapters

/-- A chapter dict `{start, end, title}` (chapters.py / generate_audiobook.py).
`stop` models the `end` key (`end` is a Lean keyword).  Times are in
seconds; the claims' inputs are exact, so `ℚ` models the Python floats. -/
structure Chapter where
  start : ℚ
  stop : ℚ
  title : String
deriving DecidableEq, Repr

/-- chapters.py lines 178-191: the accumulation loop of
`filter_short_chapters`.  The accumulator is kept reversed so that
mutating `filtered[-1]` is an update of the accumulator's head; the
first chapter is always appended unconditionally. -/
def mergeShort (minLen : ℚ) : List Chapter → List Chapter → List Chapter
  | acc, [] => acc.reverse
  | [], c :: rest => mergeShort minLen [c] rest
  | a :: acc, c :: rest =>
    if c.stop - c.start < minLen then mergeShort minLen ({ a with stop := c.stop } :: acc) rest
    else mergeShort minLen (c :: a :: acc) rest

/-- chapters.py lines 193-199: if more than one chapter survived and the
first is still too short, merge it forward into the second (the second
chapter's `start` moves back, the first is dropped). -/
def fixFirst (minLen : ℚ) (l : List Chapter) : List Chapter :=
  match l with
  | c0 :: c1 :: rest =>
    if c0.stop - c0.start < minLen then { c1 with start := c0.start } :: rest else l
  | _ => l

/-- chapters.py line 203: does the title match the regular expression
`^Chapter \d+$` — the literal word `Chapter`, one space, then digits? -/
def isGenericChapterTitle (t : String) : Bool :=
  match t.data with
  | 'C' :: 'h' :: 'a' :: 'p' :: 't' :: 'e' :: 'r' :: ' ' :: rest =>
    !rest.isEmpty && rest.all (·.isDigit)
  | _ => false

/-- chapters.py lines 202-204: renumber generic `Chapter N` titles
sequentially; `i` is the 0-based position in the filtered list. -/
def renumberFrom : Nat → List Chapter → List Chapter
  | _, [] => []
  | i, c :: rest =>
    (if isGenericChapterTitle c.title then { c with title := "Chapter " ++ toString (i + 1) }
     else c) :: renumberFrom (i + 1) rest

/-- chapters.py lines 171-206, `filter_short_chapters`: merge chapters
shorter than `min_len` into the previous kept chapter, handle a
still-short first chapter by merging it forward, then renumber generic
titles.  No-op on an empty list or non-positive `min_len`. -/
def filter_short_chapters (chapters : List Chapter) (min_len : ℚ) : List Chapter :=
  if chapters = [] ∨ min_len ≤ 0 then chapters
  else renumberFrom 0 (fixFirst min_len (mergeShort min_len [] chapters))

/-- Longest common prefix of two character lists. -/
def lcp2 : List Char → List Char → List Char
  | a :: as, b :: bs => if a = b then a :: lcp2 as bs else []
  | _, _ => []

/-- Longest common prefix of a list of strings; models
`os.path.commonprefix` as used on the chapter titles. -/
def lcpAll : List (List Char) → List Char
  | [] => []
  | t :: ts => ts.foldl lcp2 t

/-- Python `str.rfind(sub)`: the largest index at which `sub` occurs in
`s`, or `-1` when it does not occur. -/
def rfindSub (sub s : List Char) : Int :=
  match ((List.range (s.length + 1)).filter (fun i => sub.isPrefixOf (s.drop i))).getLast? with
  | some i => (i : Int)
  | none => -1

/-- Python whitespace characters stripped by `str.strip()` (the ASCII
ones; the repository's titles contain no exotic whitespace). -/
def isPyWhitespaceChar (c : Char) : Bool :=
  c == ' ' || c == '\t' || c == '\n' || c == '\r' || c == '\x0b' || c == '\x0c'

/-- Python `str.strip()` on a character list. -/
def stripChars (s : List Char) : List Char :=
  ((s.dropWhile isPyWhitespaceChar).reverse.dropWhile isPyWhitespaceChar).reverse

/-- chapters.py line 149: the separator candidates scanned rightmost-first
inside the raw common prefix (the last one is space, en dash, space). -/
def sepCandidates : List (List Char) :=
  [" | ".data, " - ".data, ": ".data, " / ".data, " – ".data]

/-- chapters.py lines 148-161: back the raw common prefix up to the last
separator occurrence (`idx + len(sep)`, keeping the code's quirk of
comparing a raw `rfind` index against the previously *adjusted* value),
falling back to the last plain space, else keep the prefix whole. -/
def adjustPrefixToSep (p : List Char) : List Char :=
  let lastSep : Int := sepCandidates.foldl (fun acc sep =>
    let idx := rfindSub sep p
    if idx > acc then idx + (sep.length : Int) else acc) (-1)
  let lastSep : Int :=
    if lastSep = -1 then
      let idx := rfindSub [' '] p
      if idx ≠ -1 then idx + 1 else -1
    else lastSep
  if lastSep ≠ -1 then p.take lastSep.toNat else p

/-- chapters.py lines 134-169, `clean_chapter_titles`: compute the common
title prefix, back it up to a separator (or space), and strip it from
every title that starts with it — but only when the adjusted prefix is
longer than 3 characters; lists with fewer than 2 chapters and empty
prefixes are returned unchanged.  `stripPrefixAll` is the strip loop of
lines 164-167. -/
def stripPrefixAll (p : List Char) (chapters : List Chapter) : List Chapter :=
  chapters.map (fun c =>
    if p.isPrefixOf c.title.data then
      { c with title := String.mk (stripChars (c.title.data.drop p.length)) }
    else c)

/-- chapters.py lines 134-169, `clean_chapter_titles` proper. -/
def clean_chapter_titles (chapters : List Chapter) : List Chapter :=
  if chapters.length < 2 then chapters
  else if lcpAll (chapters.map (fun c => c.title.data)) = [] then chapters
  else if 3 < (adjustPrefixToSep (lcpAll (chapters.map (fun c => c.title.data)))).length then
    stripPrefixAll (adjustPrefixToSep (lcpAll (chapters.map (fun c => c.title.data)))) chapters
  else chapters

/-- chapters.py lines 12-32: one raw chapter record of the ffprobe
`-show_chapters` JSON: `start_time`, `end_time` (parsed as floats) and the
optional `tags.title`. -/
structure RawChapter where
  start_time : ℚ
  end_time : ℚ
  tags_title : Option String
deriving DecidableEq

/-- The enumerated list comprehension of `extract_metadata_chapters`
(chapters.py lines 22-30); `i` is the 0-based enumeration index used for
the `Chapter {i+1}` title fallback. -/
def extractFrom : Nat → List RawChapter → List Chapter
  | _, [] => []
  | i, c :: rest =>
    { start := c.start_time, stop := c.end_time,
      title := c.tags_title.getD ("Chapter " ++ toString (i + 1)) } :: extractFrom (i + 1) rest

/-- chapters.py lines 12-32, `extract_metadata_chapters`: map the probed
chapter records to chapter dicts; `none` models the `except` branch (the
probe output failed to parse), which returns the empty list. -/
def extract_metadata_chapters (probe : Option (List RawChapter)) : List Chapter :=
  match probe with
  | none => []
  | some rcs => extractFrom 0 rcs

/-- The contiguity invariant of the spec's data model: each chapter's
`end` equals the next chapter's `start`. -/
def contiguous (l : List Chapter) : Prop := l.Chain' (fun a b => a.stop = b.start)

/-- The `end` of the last chapter, if any. -/
def lastStop (l : List Chapter) : Option ℚ := l.getLast?.map (fun c => c.stop)

/-- generate_audiobook.py lines 159-160 and 176-177: `chapters[-1]["end"] =
duration`, as a pure update of the last element. -/
def setLastEnd : List Chapter → ℚ → List Chapter
  | [], _ => []
  | [c], d => [{ c with stop := d }]
  | c :: c2 :: rest, d => c :: setLastEnd (c2 :: rest) d

/-- generate_audiobook.py lines 157-177, the chapter post-processing of
`process_item` between detection and packaging, in `--auto` mode (the
interactive `validate_chapters` pass is skipped): clamp the last chapter
to the probed duration, merge short chapters, clamp again. -/
def postProcess (chapters : List Chapter) (duration min_chapter_len : ℚ) : List Chapter :=
  let cs1 := if chapters ≠ [] ∧ 0 < duration then setLastEnd chapters duration else chapters
  let cs2 := filter_short_chapters cs1 min_chapter_len
  if cs2 ≠ [] ∧ 0 < duration then setLastEnd cs2 duration else cs2

lemma setLastEnd_ne_nil {l : List Chapter} (h : l ≠ []) (d : ℚ) : setLastEnd l d ≠ [] := by
  match l with
  | [] => exact absurd rfl h
  | [c] => simp [setLastEnd]
  | c :: c2 :: rest => simp [setLastEnd]

lemma lastStop_setLastEnd {l : List Chapter} (h : l ≠ []) (d : ℚ) :
    lastStop (setLastEnd l d) = some d := by
  match l with
  | [] => exact absurd rfl h
  | [c] => simp [setLastEnd, lastStop]
  | c :: c2 :: rest =>
    have ih := lastStop_setLastEnd (l := c2 :: rest) (by simp) d
    have hne := setLastEnd_ne_nil (l := c2 :: rest) (by simp) d
    unfold setLastEnd lastStop
    unfold lastStop at ih
    match hsl : setLastEnd (c2 :: rest) d with
    | [] => exact absurd hsl hne
    | q :: r =>
      rw [hsl] at ih
      simpa [List.getLast?_cons_cons] using ih

lemma head_start_setLastEnd (b : Chapter) (t : List Chapter) (d : ℚ) :
    (setLastEnd (b :: t) d).head?.map (fun c => c.start) = some b.start := by
  cases t <;> rfl

lemma contiguous_setLastEnd {l : List Chapter} (h : contiguous l) (d : ℚ) :
    contiguous (setLastEnd l d) := by
  match l with
  | [] => exact h
  | [c] => simp [setLastEnd, contiguous]
  | a :: b :: t =>
    rw [contiguous, List.chain'_cons'] at h
    have ih := contiguous_setLastEnd (l := b :: t) h.2 d
    rw [contiguous, setLastEnd, List.chain'_cons']
    refine ⟨?_, ih⟩
    intro y hy
    have hh := head_start_setLastEnd b t d
    rw [Option.map_eq_some'] at hh
    obtain ⟨c0, hc0, hc0s⟩ := hh
    rw [hy] at hc0
    cases hc0
    rw [hc0s]
    exact h.1 b rfl

lemma contiguous_replace (X : List Chapter) (a c : Chapter) (R : List Chapter)
    (h : contiguous (X ++ a :: c :: R)) :
    contiguous (X ++ { a with stop := c.stop } :: R) := by
  rw [contiguous, List.chain'_append] at h ⊢
  obtain ⟨hX, hmid, hlink⟩ := h
  rw [List.chain'_cons'] at hmid
  have hcr := hmid.2
  rw [List.chain'_cons'] at hcr
  refine ⟨hX, ?_, ?_⟩
  · rw [List.chain'_cons']
    exact ⟨fun y hy => hcr.1 y hy, hcr.2⟩
  · intro x hx y hy
    simp only [List.head?_cons, Option.mem_def, Option.some.injEq] at hy
    subst hy
    exact hlink x hx a rfl

lemma mergeShort_contiguous (m : ℚ) :
    ∀ (input acc : List Chapter), contiguous (acc.reverse ++ input) →
      contiguous (mergeShort m acc input)
  | [], acc, h => by
    rw [mergeShort.eq_def]
    cases acc with
    | nil => simpa using h
    | cons a acc => simpa using h
  | c :: rest, [], h => by
    rw [mergeShort]
    exact mergeShort_contiguous m rest [c] (by simpa using h)
  | c :: rest, a :: acc, h => by
    rw [mergeShort]
    by_cases hshort : c.stop - c.start < m
    · rw [if_pos hshort]
      refine mergeShort_contiguous m rest _ ?_
      have := contiguous_replace acc.reverse a c rest (by simpa using h)
      simpa using this
    · rw [if_neg hshort]
      refine mergeShort_contiguous m rest _ ?_
      have h2 : (acc.reverse ++ [a]) ++ c :: rest = acc.reverse ++ [a, c] ++ rest := by
        simp
      rw [List.reverse_cons] at h
      rw [h2] at h
      simpa using h

lemma fixFirst_contiguous (m : ℚ) {l : List Chapter} (h : contiguous l) :
    contiguous (fixFirst m l) := by
  match l with
  | [] => exact h
  | [c] => exact h
  | c0 :: c1 :: rest =>
    rw [fixFirst]
    by_cases hs : c0.stop - c0.start < m
    · rw [if_pos hs]
      rw [contiguous, List.chain'_cons'] at h ⊢
      rw [List.chain'_cons'] at h
      exact ⟨h.2.1, h.2.2⟩
    · rw [if_neg hs]
      exact h

lemma renumberFrom_shape (i : Nat) (c : Chapter) (rest : List Chapter) :
    ∃ t, renumberFrom i (c :: rest) =
      { c with title := t } :: renumberFrom (i + 1) rest := by
  rw [renumberFrom]
  by_cases hg : isGenericChapterTitle c.title
  · exact ⟨"Chapter " ++ toString (i + 1), by rw [if_pos hg]⟩
  · exact ⟨c.title, by rw [if_neg hg]⟩

lemma renumberFrom_contiguous : ∀ (i : Nat) {l : List Chapter}, contiguous l →
    contiguous (renumberFrom i l)
  | _, [], h => h
  | i, c :: rest, h => by
    obtain ⟨t, ht⟩ := renumberFrom_shape i c rest
    rw [ht]
    rw [contiguous, List.chain'_cons'] at h ⊢
    refine ⟨?_, renumberFrom_contiguous (i + 1) h.2⟩
    intro y hy
    cases rest with
    | nil => simp [renumberFrom] at hy
    | cons b rb =>
      obtain ⟨tb, htb⟩ := renumberFrom_shape (i + 1) b rb
      rw [htb] at hy
      simp only [List.head?_cons, Option.mem_def, Option.some.injEq] at hy
      subst hy
      exact h.1 b rfl

lemma mergeShort_ne_nil (m : ℚ) :
    ∀ (input acc : List Chapter), acc ≠ [] ∨ input ≠ [] →
      mergeShort m acc input ≠ []
  | [], acc, h => by
    rw [mergeShort.eq_def]
    cases acc with
    | nil => rcases h with h | h <;> simp_all
    | cons a t => simp
  | c :: rest, [], _ => by
    rw [mergeShort]
    exact mergeShort_ne_nil m rest [c] (Or.inl (by simp))
  | c :: rest, a :: acc, _ => by
    rw [mergeShort]
    by_cases hshort : c.stop - c.start < m
    · rw [if_pos hshort]
      exact mergeShort_ne_nil m rest _ (Or.inl (by simp))
    · rw [if_neg hshort]
      exact mergeShort_ne_nil m rest _ (Or.inl (by simp))

lemma fixFirst_ne_nil (m : ℚ) {l : List Chapter} (h : l ≠ []) : fixFirst m l ≠ [] := by
  match l with
  | [] => exact absurd rfl h
  | [c] => simp [fixFirst]
  | c0 :: c1 :: rest =>
    rw [fixFirst]
    by_cases hs : c0.stop - c0.start < m
    · rw [if_pos hs]; simp
    · rw [if_neg hs]; simp

lemma renumberFrom_ne_nil (i : Nat) {l : List Chapter} (h : l ≠ []) :
    renumberFrom i l ≠ [] := by
  match l with
  | [] => exact absurd rfl h
  | c :: rest =>
    obtain ⟨t, ht⟩ := renumberFrom_shape i c rest
    rw [ht]
    simp

lemma filter_short_chapters_ne_nil {l : List Chapter} (h : l ≠ []) (m : ℚ) :
    filter_short_chapters l m ≠ [] := by
  rw [filter_short_chapters]
  by_cases hc : l = [] ∨ m ≤ 0
  · rw [if_pos hc]; exact h
  · rw [if_neg hc]
    exact renumberFrom_ne_nil 0 (fixFirst_ne_nil m (mergeShort_ne_nil m l [] (Or.inr h)))

lemma filter_short_chapters_contiguous {l : List Chapter} (h : contiguous l) (m : ℚ) :
    contiguous (filter_short_chapters l m) := by
  rw [filter_short_chapters]
  by_cases hc : l = [] ∨ m ≤ 0
  · rw [if_pos hc]; exact h
  · rw [if_neg hc]
    exact renumberFrom_contiguous 0
      (fixFirst_contiguous m (mergeShort_contiguous m l [] (by simpa using h)))

end Chapters

/-! ### src/storytel_api.py -/

namespace StorytelApi

/-- One entry of the `chapters` array inside the abook format of a
playback-metadata response (storytel_api.py lines 168-185): all three
fields are read with `dict.get`, hence optional. -/
structure PlaybackChapter where
  title : Option String
  number : Option Int
  durationInMilliseconds : Option Int
deriving DecidableEq

/-- One entry of the response's `formats` array.  The code reads
`f.get("type")` and `abook_format.get("chapters", [])`; an absent
`chapters` key defaults to the empty list and is folded into `chapters`
directly. -/
structure PlaybackFormat where
  type : String
  chapters : List PlaybackChapter
deriving DecidableEq

/-- A parsed playback-metadata response body; `data.get("formats", [])`
defaults to the empty list, folded in likewise. -/
structure PlaybackMetadata where
  formats : List PlaybackFormat
deriving DecidableEq

/-- A Storytel marker `{title, startTime}` (milliseconds). -/
structure Marker where
  title : String
  startTime : Int
deriving DecidableEq

/-- storytel_api.py lines 170-186: the marker-building loop.  `i` is the
0-based `enumerate` index, `t` the running millisecond offset
(`current_time_ms`).  `if not title` in Python treats both a missing and
an empty title as absent. -/
def markersLoop : Nat → Int → List PlaybackChapter → List Marker
  | _, _, [] => []
  | i, t, c :: rest =>
    let fallback : String :=
      match c.number with
      | some n => "Chapter " ++ toString n
      | none => "Chapter " ++ toString (i + 1)
    let title :=
      match c.title with
      | some s => if s = "" then fallback else s
      | none => fallback
    { title := title, startTime := t } ::
      markersLoop (i + 1) (t + c.durationInMilliseconds.getD 0) rest

/-- storytel_api.py lines 141-190, `get_audiobook_markers` (the pure part,
after the HTTP response has been parsed; 404/exception paths return `[]`
upstream): find the first format whose `type` is `"abook"` and walk its
chapters; no abook format means an empty marker list. -/
def get_audiobook_markers (resp : PlaybackMetadata) : List Marker :=
  match resp.formats.find? (fun f => f.type == "abook") with
  | none => []
  | some abook => markersLoop 0 0 abook.chapters

/-- Sum of the chapters' `durationInMilliseconds`, a missing value
counting as 0 — the claim's expected start-offset accumulator. -/
def sumDur (cs : List PlaybackChapter) : Int :=
  (cs.map (fun c => c.durationInMilliseconds.getD 0)).sum

/-- The claim's title rule, written from the spec: the chapter's own title
when present and non-empty, else `Chapter {number}` when a number is
carried, else `Chapter {i+1}` by 1-based position. -/
def claimTitle (i : Nat) (c : PlaybackChapter) : String :=
  match c.title with
  | some t =>
    if t ≠ "" then t
    else
      match c.number with
      | some n => "Chapter " ++ toString n
      | none => "Chapter " ++ toString (i + 1)
  | none =>
    match c.number with
    | some n => "Chapter " ++ toString n
    | none => "Chapter " ++ toString (i + 1)

lemma markersLoop_length : ∀ (cs : List PlaybackChapter) (i : Nat) (t : Int),
    (markersLoop i t cs).length = cs.length
  | [], _, _ => rfl
  | _ :: rest, i, t => by
    rw [markersLoop]
    simpa using markersLoop_length rest (i + 1) _

lemma markersLoop_get : ∀ (cs : List PlaybackChapter) (i : Nat) (t : Int)
    (j : Nat) (h : j < cs.length) (h2 : j < (markersLoop i t cs).length),
    (markersLoop i t cs).get ⟨j, h2⟩ =
      { title := claimTitle (i + j) (cs.get ⟨j, h⟩), startTime := t + sumDur (cs.take j) }
  | [], _, _, j, h, _ => absurd h (by simp)
  | c :: rest, i, t, 0, h, h2 => by
    simp only [markersLoop, List.get]
    cases hct : c.title with
    | none =>
      cases hcn : c.number <;>
        simp [claimTitle, sumDur, hct, hcn]
    | some s =>
      by_cases hs : s = "" <;>
        cases hcn : c.number <;>
          simp [claimTitle, sumDur, hct, hcn, hs]
  | c :: rest, i, t, j + 1, h, h2 => by
    simp only [markersLoop, List.get]
    rw [markersLoop_get rest (i + 1) (t + c.durationInMilliseconds.getD 0) j
      (by simpa using Nat.lt_of_succ_lt_succ h)
      (by simpa [markersLoop_length] using Nat.lt_of_succ_lt_succ h)]
    simp only [Marker.mk.injEq]
    constructor
    · have : i + 1 + j = i + (j + 1) := by omega
      rw [this]
    · simp [sumDur]
      ring

/-- The HTTP response of the abook asset endpoint as far as
`download_audiobook` inspects it: status code and optional `Location`
header (storytel_api.py lines 124-131). -/
structure AssetResponse where
  status : Nat
  location : Option String
deriving DecidableEq

/-- What the redirected stream does: either the full payload arrives, or
an exception is raised after some prefix of it was written (this also
covers a failure before any byte was written, with an empty prefix). -/
inductive StreamOutcome where
  | success : List Nat → StreamOutcome
  | failure : List Nat → StreamOutcome
deriving DecidableEq

/-- The two files `_download_stream` can touch: the target path and the
temporary `target_path + ".part"`. -/
structure FsState where
  target : Option (List Nat)
  part : Option (List Nat)
deriving DecidableEq

/-- Result of a download call: normal return or a raised exception. -/
inductive DlResult where
  | ok : DlResult
  | error : DlResult
deriving DecidableEq

/-- storytel_api.py lines 82-110, `_download_stream`: chunks are written
to the `.part` temp file; after the stream completes, `os.rename` moves
it onto the target; on any exception the temp file is removed and the
exception re-raised (the target is never touched). -/
def download_stream (outcome : StreamOutcome) (s : FsState) : DlResult × FsState :=
  match outcome with
  | .success payload =>
    let s1 := { s with part := some payload }
    (.ok, { s1 with target := some payload, part := none })
  | .failure written =>
    let s1 := { s with part := some written }
    (.error, { s1 with part := none })

/-- storytel_api.py lines 112-139, `download_audiobook`: requires status
exactly 302 with a `Location` header, else raises (`ValueError`, logged
and re-raised); on a good redirect streams the location via
`_download_stream`. -/
def download_audiobook (resp : AssetResponse) (outcome : StreamOutcome) (s : FsState) :
    DlResult × FsState :=
  if resp.status ≠ 302 then (.error, s)
  else
    match resp.location with
    | none => (.error, s)
    | some _ => download_stream outcome s

end StorytelApi

/-! ### src/audio_utils.py -/

namespace AudioUtils

/-- A marker dict as `convert_to_m4b` consumes it (audio_utils.py lines
34-48): both keys are read with `dict.get`, hence optional. -/
structure MarkerDict where
  title : Option String
  startTime : Option Int
deriving DecidableEq

/-- One `[CHAPTER]` block of the FFMETADATA sidecar: `TIMEBASE`, `START`,
`END` (named `stop`; `end` is a Lean keyword) and `title`. -/
structure ChapterBlock where
  timebase : String
  start : Int
  stop : Int
  title : String
deriving DecidableEq

/-- audio_utils.py line 34: `sorted(markers, key=lambda x:
x.get("startTime", 0))`.  Python's `sorted` is a stable sort by the key;
insertion sort with this relation is stable, hence the same function. -/
def sortMarkers (ms : List MarkerDict) : List MarkerDict :=
  ms.insertionSort (fun a b => a.startTime.getD 0 ≤ b.startTime.getD 0)

/-- audio_utils.py lines 36-59, the body of the chapter loop for index
`i` over the sorted markers: `START` from the marker (default 0), `END`
from the next sorted marker (defaulting to this marker's own start) or
`start + 10000000` for the last block, and the title defaulted to
`Chapter {i+1}` when missing or empty. -/
def chapterBlockAt (sm : List MarkerDict) (i : Nat) : ChapterBlock :=
  let m := sm.getD i ⟨none, none⟩
  let start := m.startTime.getD 0
  { timebase := "1/1000"
    start := start
    stop :=
      if i + 1 < sm.length then (sm.getD (i + 1) ⟨none, none⟩).startTime.getD start
      else start + 10000000
    title :=
      match m.title with
      | some t => if t = "" then "Chapter " ++ toString (i + 1) else t
      | none => "Chapter " ++ toString (i + 1) }

/-- audio_utils.py lines 32-59: the `[CHAPTER]` blocks `convert_to_m4b`
writes into the FFMETADATA sidecar — none at all when the marker list is
empty (`if markers:`), else one per sorted marker. -/
def convert_to_m4b_chapters (markers : List MarkerDict) : List ChapterBlock :=
  if markers = [] then []
  else (List.range (sortMarkers markers).length).map (chapterBlockAt (sortMarkers markers))

instance : IsTotal MarkerDict (fun a b => a.startTime.getD 0 ≤ b.startTime.getD 0) :=
  ⟨fun _ _ => Int.le_total _ _⟩

instance : IsTrans MarkerDict (fun a b => a.startTime.getD 0 ≤ b.startTime.getD 0) :=
  ⟨fun _ _ _ => Int.le_trans⟩

lemma getD_of_lt {α : Type} (l : List α) (d : α) (i : Nat) (h : i < l.length) :
    l.getD i d = l.get ⟨i, h⟩ := by
  rw [List.getD_eq_getElem?_getD, List.getElem?_eq_getElem h, Option.getD_some,
    List.get_eq_getElem]

lemma convert_chapters_get {markers : List MarkerDict} (hne : markers ≠ [])
    (i : Nat) (h : i < (convert_to_m4b_chapters markers).length) :
    (convert_to_m4b_chapters markers).get ⟨i, h⟩ = chapterBlockAt (sortMarkers markers) i := by
  have h2 : (convert_to_m4b_chapters markers) =
      (List.range (sortMarkers markers).length).map (chapterBlockAt (sortMarkers markers)) := by
    rw [convert_to_m4b_chapters, if_neg hne]
  rw [List.get_of_eq h2 ⟨i, h⟩]
  simp only [List.get_eq_getElem, List.getElem_map, List.getElem_range]

lemma convert_chapters_length {markers : List MarkerDict} (hne : markers ≠ []) :
    (convert_to_m4b_chapters markers).length = markers.length := by
  rw [convert_to_m4b_chapters, if_neg hne]
  simp [sortMarkers, List.length_insertionSort]

lemma sortMarkers_length (markers : List MarkerDict) :
    (sortMarkers markers).length = markers.length := by
  simp [sortMarkers, List.length_insertionSort]

lemma sortMarkers_sorted (markers : List MarkerDict) :
    List.Pairwise (fun a b => a.startTime.getD 0 ≤ b.startTime.getD 0)
      (sortMarkers markers) :=
  List.sorted_insertionSort _ markers

lemma sortMarkers_mem {markers : List MarkerDict} {m : MarkerDict}
    (h : m ∈ sortMarkers markers) : m ∈ markers :=
  (List.perm_insertionSort _ markers).mem_iff.mp h

end AudioUtils

/-- C7: with a non-empty marker list (whose markers all carry a
`startTime`), the sidecar `convert_to_m4b` writes has one `[CHAPTER]`
block per marker in ascending `startTime` order; every block has
`TIMEBASE=1/1000` and `START` equal to its sorted marker's startTime;
each block's `END` equals the next block's `START` except the last,
whose `END` is its own `START + 10000000`; and each title is the
marker's title, or `Chapter {i+1}` when missing or empty. -/
theorem C7_convert_to_m4b_chapters_spec (markers : List AudioUtils.MarkerDict)
    (hne : markers ≠ [])
    (hall : ∀ m ∈ markers, m.startTime.isSome) :
    (AudioUtils.convert_to_m4b_chapters markers).length = markers.length ∧
    (∀ (i : Nat) (h : i < (AudioUtils.convert_to_m4b_chapters markers).length),
      ((AudioUtils.convert_to_m4b_chapters markers).get ⟨i, h⟩).timebase = "1/1000") ∧
    (∀ (i : Nat) (h : i < (AudioUtils.convert_to_m4b_chapters markers).length)
      (h2 : i < (AudioUtils.sortMarkers markers).length),
      ((AudioUtils.convert_to_m4b_chapters markers).get ⟨i, h⟩).start =
        ((AudioUtils.sortMarkers markers).get ⟨i, h2⟩).startTime.getD 0) ∧
    (∀ (i j : Nat) (hi : i < (AudioUtils.convert_to_m4b_chapters markers).length)
      (hj : j < (AudioUtils.convert_to_m4b_chapters markers).length), i ≤ j →
      ((AudioUtils.convert_to_m4b_chapters markers).get ⟨i, hi⟩).start ≤
        ((AudioUtils.convert_to_m4b_chapters markers).get ⟨j, hj⟩).start) ∧
    (∀ (i : Nat) (hi : i < (AudioUtils.convert_to_m4b_chapters markers).length)
      (hnext : i + 1 < (AudioUtils.convert_to_m4b_chapters markers).length),
      ((AudioUtils.convert_to_m4b_chapters markers).get ⟨i, hi⟩).stop =
        ((AudioUtils.convert_to_m4b_chapters markers).get ⟨i + 1, hnext⟩).start) ∧
    (∀ h0 : AudioUtils.convert_to_m4b_chapters markers ≠ [],
      ((AudioUtils.convert_to_m4b_chapters markers).getLast h0).stop =
        ((AudioUtils.convert_to_m4b_chapters markers).getLast h0).start + 10000000) ∧
    (∀ (i : Nat) (h : i < (AudioUtils.convert_to_m4b_chapters markers).length)
      (h2 : i < (AudioUtils.sortMarkers markers).length),
      ((AudioUtils.convert_to_m4b_chapters markers).get ⟨i, h⟩).title =
        (match ((AudioUtils.sortMarkers markers).get ⟨i, h2⟩).title with
          | some t => if t = "" then "Chapter " ++ toString (i + 1) else t
          | none => "Chapter " ++ toString (i + 1))) := by
  have hlen : (AudioUtils.convert_to_m4b_chapters markers).length =
      (AudioUtils.sortMarkers markers).length :=
    (AudioUtils.convert_chapters_length hne).trans (AudioUtils.sortMarkers_length markers).symm
  have hstart : ∀ (i : Nat) (h : i < (AudioUtils.convert_to_m4b_chapters markers).length)
      (h2 : i < (AudioUtils.sortMarkers markers).length),
      ((AudioUtils.convert_to_m4b_chapters markers).get ⟨i, h⟩).start =
        ((AudioUtils.sortMarkers markers).get ⟨i, h2⟩).startTime.getD 0 := by
    intro i h h2
    rw [AudioUtils.convert_chapters_get hne i h]
    simp only [AudioUtils.chapterBlockAt]
    rw [AudioUtils.getD_of_lt _ _ i h2]
  refine ⟨(AudioUtils.convert_chapters_length hne), ?_, hstart, ?_, ?_, ?_, ?_⟩
  · intro i h
    rw [AudioUtils.convert_chapters_get hne i h]
    rfl
  · intro i j hi hj hij
    rcases Nat.lt_or_ge i j with hlt | hge
    · rw [hstart i hi (hlen ▸ hi), hstart j hj (hlen ▸ hj)]
      have hp := List.pairwise_iff_getElem.mp (AudioUtils.sortMarkers_sorted markers)
        i j (hlen ▸ hi) (hlen ▸ hj) hlt
      simpa [List.get_eq_getElem] using hp
    · have : i = j := Nat.le_antisymm hij hge
      subst this
      rfl
  · intro i hi hnext
    have h2 : i < (AudioUtils.sortMarkers markers).length := hlen ▸ hi
    have h2n : i + 1 < (AudioUtils.sortMarkers markers).length := hlen ▸ hnext
    obtain ⟨v, hv⟩ := Option.isSome_iff_exists.mp
      (hall _ (AudioUtils.sortMarkers_mem
        (List.get_mem (AudioUtils.sortMarkers markers) (i + 1) h2n)))
    rw [AudioUtils.convert_chapters_get hne i hi]
    rw [hstart (i + 1) hnext h2n]
    simp only [AudioUtils.chapterBlockAt]
    rw [if_pos h2n, AudioUtils.getD_of_lt _ _ (i + 1) h2n, hv]
    simp
  · intro h0
    have hpos : 0 < (AudioUtils.convert_to_m4b_chapters markers).length :=
      List.length_pos_of_ne_nil h0
    rw [List.getLast_eq_get]
    set n := (AudioUtils.convert_to_m4b_chapters markers).length with hn
    rw [AudioUtils.convert_chapters_get hne (n - 1) (by omega)]
    simp only [AudioUtils.chapterBlockAt]
    rw [if_neg (by omega)]
  · intro i h h2
    rw [AudioUtils.convert_chapters_get hne i h]
    simp only [AudioUtils.chapterBlockAt]
    rw [AudioUtils.getD_of_lt _ _ i h2]

/-- C7 witness: two unsorted markers — one with an empty title, one titled
"Outro" — realise the hypotheses; the blocks come out sorted, contiguous,
and with the last END at START + 10000000. -/
theorem C7_convert_to_m4b_chapters_witness :
    (([⟨some "Outro", some 5000⟩, ⟨some "", some 0⟩] : List AudioUtils.MarkerDict) ≠ [] ∧
      (∀ m ∈ ([⟨some "Outro", some 5000⟩, ⟨some "", some 0⟩] :
        List AudioUtils.MarkerDict), m.startTime.isSome)) ∧
    (AudioUtils.convert_to_m4b_chapters
        [⟨some "Outro", some 5000⟩, ⟨some "", some 0⟩]).length = 2 ∧
    AudioUtils.convert_to_m4b_chapters [⟨some "Outro", some 5000⟩, ⟨some "", some 0⟩] =
      [⟨"1/1000", 0, 5000, "Chapter 1"⟩, ⟨"1/1000", 5000, 10005000, "Outro"⟩] :=
  ⟨⟨by decide, by decide⟩,
   ((C7_convert_to_m4b_chapters_spec _ (by decide) (by decide)).1).trans (by decide),
   by decide⟩

/-! ### src/metadata.py -/

namespace Metadata

/-- An object carrying an optional `name` field (author, narrator,
series, category entries). -/
structure NameObj where
  name : Option String
deriving DecidableEq

/-- The `series` field can be a dict or a list of dicts
(metadata.py lines 46-52). -/
inductive SeriesField where
  | obj : NameObj → SeriesField
  | list : List NameObj → SeriesField
deriving DecidableEq

/-- One formats-status entry `{type, source, downloaded, filename}`
(main.py lines 331-336); passed through verbatim. -/
structure FormatStatus where
  type : String
  source : String
  downloaded : Bool
  filename : Option String
deriving DecidableEq

/-- The book-details JSON as far as `extract_metadata_dict` reads it
(metadata.py lines 23-93).  Fields read through `dict.get` or guarded
`in` checks are `Option`; `id` is modelled as an optional integer
(`str(book_details.get("id", ""))` stringifies it, absent giving ""). -/
structure BookDetails where
  title : Option String
  authors : Option (List NameObj)
  author : Option NameObj
  narrators : Option (List NameObj)
  series : Option SeriesField
  releaseDate : Option String
  originalReleaseDate : Option String
  description : Option String
  category : Option NameObj
  categories : Option (List NameObj)
  language : Option String
  id : Option Int
deriving DecidableEq

/-- The returned metadata dict (metadata.py lines 81-93); `None`-valued
keys are `Option.none`. -/
structure MetadataDict where
  title : Option String
  author : String
  narrator : Option String
  series : Option String
  publishedYear : Option Int
  description : Option String
  genres : List String
  language : Option String
  provider : String
  providerId : String
  formats : List FormatStatus
deriving DecidableEq

/-- `[x.get("name") for x in l if x.get("name")]`: the truthy names of a
list of name objects (a missing or empty name is dropped). -/
def truthyNames (l : List NameObj) : List String :=
  l.filterMap (fun a =>
    match a.name with
    | some n => if n = "" then none else some n
    | none => none)

/-- Python `", ".join`. -/
def joinComma (l : List String) : String := String.intercalate ", " l

/-- Digits of a decimal literal folded into a number. -/
def parseDigits : List Char → Option Nat
  | [] => none
  | cs =>
    if cs.all Char.isDigit then
      some (cs.foldl (fun acc c => 10 * acc + (c.toNat - 48)) 0)
    else none

/-- Model of Python `int("...")`: surrounding whitespace stripped, an
optional sign, then a non-empty digit run; anything else raises
`ValueError` (`none` here).  (Python also accepts `_` separators between
digits; no release-date value uses them.) -/
def pyIntOfString (s : String) : Option Int :=
  match Chapters.stripChars s.data with
  | '-' :: rest => (parseDigits rest).map (fun n => -(n : Int))
  | '+' :: rest => (parseDigits rest).map (fun n => (n : Int))
  | rest => (parseDigits rest).map (fun n => (n : Int))

/-- Python `a or b` over optional strings: `a` unless it is missing or
empty (falsy), else `b`.  Models
`book_details.get("releaseDate") or book_details.get("originalReleaseDate")`. -/
def firstTruthy (a b : Option String) : Option String :=
  match a with
  | some s => if s = "" then b else some s
  | none => b

/-- metadata.py lines 30-37: the author name candidates.  With an
`authors` list present, its truthy names; else with a singular `author`
object, the one-element list of its (possibly missing) raw name; else no
candidates. -/
def authorCandidates (d : BookDetails) : List (Option String) :=
  match d.authors with
  | some l => (truthyNames l).map some
  | none =>
    match d.author with
    | some a => [a.name]
    | none => []

/-- `filter(None, xs)` over the candidates: drop falsy entries. -/
def filterTruthy (l : List (Option String)) : List String :=
  l.filterMap (fun x =>
    match x with
    | some s => if s = "" then none else some s
    | none => none)

/-- metadata.py lines 23-93, `extract_metadata_dict`: pure projection of
the book-details JSON plus the verbatim `formats_status` list. -/
def extract_metadata_dict (d : BookDetails) (formats_status : List FormatStatus) :
    MetadataDict :=
  { title := d.title
    author :=
      if (authorCandidates d).isEmpty then "Unknown Author"
      else joinComma (filterTruthy (authorCandidates d))
    narrator :=
      match d.narrators with
      | some l => if (truthyNames l).isEmpty then none else some (joinComma (truthyNames l))
      | none => none
    series :=
      match d.series with
      | some (.obj o) => o.name
      | some (.list (o :: _)) => o.name
      | some (.list []) => none
      | none => none
    publishedYear :=
      match firstTruthy d.releaseDate d.originalReleaseDate with
      | some r => if 4 ≤ r.data.length then pyIntOfString (String.mk (r.data.take 4)) else none
      | none => none
    description := d.description
    genres :=
      match d.category with
      | some cat =>
        match cat.name with
        | some n => if n = "" then [] else [n]
        | none => []
      | none =>
        match d.categories with
        | some l => truthyNames l
        | none => []
    language := d.language
    provider := "Storytel"
    providerId :=
      match d.id with
      | some n => toString n
      | none => ""
    formats := formats_status }

lemma truthyNames_not_mem_empty (l : List NameObj) : "" ∉ truthyNames l := by
  intro hmem
  rw [truthyNames, List.mem_filterMap] at hmem
  obtain ⟨a, _, ha⟩ := hmem
  cases han : a.name with
  | none => rw [han] at ha; exact Option.noConfusion ha
  | some n =>
    rw [han] at ha
    by_cases hn : n = ""
    · simp [hn] at ha
    · simp [hn] at ha

lemma filterTruthy_map_some {ns : List String} (h : "" ∉ ns) :
    filterTruthy (ns.map some) = ns := by
  induction ns with
  | nil => rfl
  | cons n rest ih =>
    rw [List.map_cons, filterTruthy, List.filterMap_cons]
    simp only []
    rw [if_neg (by intro hn; exact h (hn ▸ List.mem_cons_self n rest))]
    rw [show (List.filterMap _ (rest.map some)) = filterTruthy (rest.map some) from rfl]
    rw [ih (fun hm => h (List.mem_cons_of_mem n hm))]

end Metadata

namespace AudioUtils

/-- Python `str.strip()` on a string. -/
def pyStripStr (s : String) : String := String.mk (Chapters.stripChars s.data)

/-- Python `str.lower()` (ASCII case fold; the compared literal is
`"none"`). -/
def lowerStr (s : String) : String := String.mk (s.data.map Char.toLower)

/-- `line.split("=", 1)[1]`: everything after the first `=` (the loop only
uses it on lines starting with `title=`, so one is present). -/
def afterFirstEq (s : String) : String :=
  String.mk ((s.data.dropWhile (fun c => c ≠ '=')).drop 1)

/-- audio_utils.py lines 120-147, the sidecar-rewriting loop of
`fix_markers_locally`: track entry into each `[CHAPTER]` block and whether
a `title=` line was seen; synthesize `title=Chapter {count}` for a chapter
whose title line is absent, empty, or the literal `none` (case-insensitive).
Lines are modelled without their trailing newline (Python keeps it and
strips it before every comparison, so the two views agree). -/
def fixLoop : Bool → Bool → Nat → List String → List String
  | inChapter, hasTitle, count, [] =>
    if inChapter && !hasTitle then ["title=Chapter " ++ toString count] else []
  | inChapter, hasTitle, count, line :: rest =>
    if pyStripStr line = "[CHAPTER]" then
      (if inChapter && !hasTitle then ["title=Chapter " ++ toString count] else []) ++
        line :: fixLoop true false (count + 1) rest
    else if inChapter && "title=".data.isPrefixOf line.data then
      (if pyStripStr (afterFirstEq line) = "" ||
          lowerStr (pyStripStr (afterFirstEq line)) = "none" then
        "title=Chapter " ++ toString count
       else line) :: fixLoop inChapter true count rest
    else line :: fixLoop inChapter hasTitle count rest

/-- An already-packaged media file, abstracted as its FFMETADATA line list
plus an opaque audio payload (the re-embed copies the audio stream). -/
structure MediaFile where
  meta : List String
  audio : Nat
deriving DecidableEq

/-- The three paths `fix_markers_locally` touches: the media file at
`input_path`, the sidecar `input_path + ".meta_extract"`, and the
temporary output `input_path + ".fixed_tmp.m4b"`. -/
structure LocalFixState where
  media : Option MediaFile
  metaFile : Option (List String)
  tmpOut : Option MediaFile
deriving DecidableEq

/-- audio_utils.py lines 100-180, `fix_markers_locally`, driven by the
outcomes of its two external ffmpeg runs (`extractOk`: the metadata
extraction with `check=True`; `embedOk`: the re-embed's exit status).
A missing input returns `False` before the `try` block; all other paths
run the `finally` clause, which removes both temp files; only the success
path replaces the media file (remove + rename of the corrected copy). -/
def fix_markers_locally (extractOk embedOk : Bool) (s : LocalFixState) :
    Bool × LocalFixState :=
  match s.media with
  | none => (false, s)
  | some mf =>
    if !extractOk then
      (false, { s with metaFile := none, tmpOut := none })
    else
      let s1 := { s with metaFile := some mf.meta }
      let fixed := fixLoop false false 0 mf.meta
      let s2 := { s1 with metaFile := some fixed }
      if !embedOk then
        (false, { s2 with metaFile := none, tmpOut := none })
      else
        (true, { media := some ⟨fixed, mf.audio⟩, metaFile := none, tmpOut := none })

end AudioUtils

/-! ### src/main.py -/

namespace MainCli

/-- The four `--mode` values (main.py line 56). -/
inductive Mode where
  | audio
  | ebook
  | both
  | fixChapters
deriving DecidableEq

/-- The externally observable actions of `main()` in the order the code
performs them.  `loginRequest` and `processBooks` are the only
network-touching effects; `fixChaptersWalk` is the purely local
`fix_chapters_in_folder` repair walk (os.walk + ffmpeg). -/
inductive Effect where
  | setupLogging
  | loadDotenv
  | promptCredentials
  | saveCredentials
  | encryptPassword
  | fixChaptersWalk
  | loginRequest
  | processBooks
deriving DecidableEq

/-- main.py lines 54-123, the startup control flow of `main()`:
logging setup, `.env` load, the credential prompt + save when no
credentials are present (lines 100-102 — before any mode dispatch),
password encryption, then the mode branch: `fix-chapters` runs the local
walk and returns (line 109-111, before the login of line 115); every other
mode logs in and processes books.  `modeOverride` is the interactive mode
re-entry of lines 83-85 (`none` keeps the flag value). -/
def mainEffects (mode : Mode) (interactive : Bool) (modeOverride : Option Mode)
    (haveCreds : Bool) : List Effect :=
  let m := if interactive then modeOverride.getD mode else mode
  [Effect.setupLogging, Effect.loadDotenv] ++
    (if !haveCreds then [Effect.promptCredentials, Effect.saveCredentials] else []) ++
    [Effect.encryptPassword] ++
    (if m = Mode.fixChapters then [Effect.fixChaptersWalk]
     else [Effect.loginRequest, Effect.processBooks])

end MainCli

/-- C3 counterexample: a `--mode fix-chapters` run with no credentials in
the environment or `.env` does prompt for a username/password — the
credential prompt (main.py lines 100-102) runs before the mode dispatch
(line 109), refuting "never prompts ... even when none are present". -/
theorem C3_fix_chapters_counterexample :
    MainCli.Effect.promptCredentials ∈
      MainCli.mainEffects MainCli.Mode.fixChapters false none false := by
  decide

/-- C3 amended: a `fix-chapters` run whose mode is not interactively
overridden issues no login request and no book processing (its only
effects besides startup are the local repair walk, which is its last
action) — but it still requires credentials: when none are present it
prompts for and saves them before the walk. -/
theorem C3_fix_chapters_amended (interactive : Bool) (ov : Option MainCli.Mode)
    (haveCreds : Bool)
    (h : (if interactive then ov.getD MainCli.Mode.fixChapters
          else MainCli.Mode.fixChapters) = MainCli.Mode.fixChapters) :
    MainCli.Effect.loginRequest ∉
      MainCli.mainEffects MainCli.Mode.fixChapters interactive ov haveCreds ∧
    MainCli.Effect.processBooks ∉
      MainCli.mainEffects MainCli.Mode.fixChapters interactive ov haveCreds ∧
    (MainCli.mainEffects MainCli.Mode.fixChapters interactive ov haveCreds).getLast? =
      some MainCli.Effect.fixChaptersWalk := by
  simp only [MainCli.mainEffects]
  rw [h]
  cases haveCreds <;> decide

/-- C3 witness: the amended theorem at a concrete non-interactive
credential-less invocation. -/
theorem C3_fix_chapters_witness :
    ((if false then (none : Option MainCli.Mode).getD MainCli.Mode.fixChapters
      else MainCli.Mode.fixChapters) = MainCli.Mode.fixChapters) ∧
    (MainCli.Effect.loginRequest ∉
      MainCli.mainEffects MainCli.Mode.fixChapters false none false ∧
    MainCli.Effect.processBooks ∉
      MainCli.mainEffects MainCli.Mode.fixChapters false none false ∧
    (MainCli.mainEffects MainCli.Mode.fixChapters false none false).getLast? =
      some MainCli.Effect.fixChaptersWalk) :=
  ⟨rfl, C3_fix_chapters_amended false none false rfl⟩

/-- C10: whenever `fix_markers_locally` returns False — the path missing,
the metadata extraction failing, or the re-embed exiting non-zero — the
media file keeps its original content and neither the `.meta_extract` nor
the `.fixed_tmp.m4b` temp file remains (starting from a clean state); the
media file is replaced, by the copy carrying the rewritten metadata, only
on the True path. -/
theorem C10_fix_markers_locally_spec (extractOk embedOk : Bool)
    (s : AudioUtils.LocalFixState) (hm : s.metaFile = none) (ht : s.tmpOut = none) :
    ((s.media = none ∨ extractOk = false ∨ embedOk = false) →
      (AudioUtils.fix_markers_locally extractOk embedOk s).1 = false) ∧
    ((AudioUtils.fix_markers_locally extractOk embedOk s).1 = false →
      (AudioUtils.fix_markers_locally extractOk embedOk s).2.media = s.media ∧
      (AudioUtils.fix_markers_locally extractOk embedOk s).2.metaFile = none ∧
      (AudioUtils.fix_markers_locally extractOk embedOk s).2.tmpOut = none) ∧
    ((AudioUtils.fix_markers_locally extractOk embedOk s).1 = true →
      (AudioUtils.fix_markers_locally extractOk embedOk s).2.metaFile = none ∧
      (AudioUtils.fix_markers_locally extractOk embedOk s).2.tmpOut = none ∧
      ∃ mf : AudioUtils.MediaFile, s.media = some mf ∧
        (AudioUtils.fix_markers_locally extractOk embedOk s).2.media =
          some ⟨AudioUtils.fixLoop false false 0 mf.meta, mf.audio⟩) := by
  cases hsm : s.media with
  | none =>
    refine ⟨fun _ => ?_, fun _ => ?_, fun habs => ?_⟩
    · simp [AudioUtils.fix_markers_locally, hsm]
    · simp [AudioUtils.fix_markers_locally, hsm, hm, ht]
    · simp [AudioUtils.fix_markers_locally, hsm] at habs
  | some mf =>
    cases extractOk <;> cases embedOk <;>
      simp [AudioUtils.fix_markers_locally, hsm, hm, ht]

/-- C10 witness: a one-chapter file missing its title line, under a failed
re-embed (False path: file and temps untouched/absent) and under a clean
run (True path: the rewritten sidecar gains the synthesized title). -/
theorem C10_fix_markers_locally_witness :
    ((⟨some ⟨["[CHAPTER]", "START=0"], 5⟩, none, none⟩ :
        AudioUtils.LocalFixState).metaFile = none ∧
      (⟨some ⟨["[CHAPTER]", "START=0"], 5⟩, none, none⟩ :
        AudioUtils.LocalFixState).tmpOut = none) ∧
    ((AudioUtils.fix_markers_locally true false
        ⟨some ⟨["[CHAPTER]", "START=0"], 5⟩, none, none⟩).1 = false ∧
      (AudioUtils.fix_markers_locally true false
        ⟨some ⟨["[CHAPTER]", "START=0"], 5⟩, none, none⟩).2.media =
        some ⟨["[CHAPTER]", "START=0"], 5⟩) ∧
    ((AudioUtils.fix_markers_locally true true
        ⟨some ⟨["[CHAPTER]", "START=0"], 5⟩, none, none⟩).1 = true ∧
      (AudioUtils.fix_markers_locally true true
        ⟨some ⟨["[CHAPTER]", "START=0"], 5⟩, none, none⟩).2.media =
        some ⟨["[CHAPTER]", "START=0", "title=Chapter 1"], 5⟩) := by
  refine ⟨⟨rfl, rfl⟩, ⟨?_, ?_⟩, ⟨?_, ?_⟩⟩
  · exact (C10_fix_markers_locally_spec true false _ rfl rfl).1 (Or.inr (Or.inr rfl))
  · exact ((C10_fix_markers_locally_spec true false _ rfl rfl).2.1 (by decide)).1
  · decide
  · obtain ⟨mf, hmf, hmedia⟩ :=
      ((C10_fix_markers_locally_spec true true
        ⟨some ⟨["[CHAPTER]", "START=0"], 5⟩, none, none⟩ rfl rfl).2.2 (by decide)).2.2
    rw [hmedia]
    cases hmf
    decide

/-- C8 counterexample: on a book-details object whose singular `author`
object carries no name (and with no `authors` list), the claimed default
"Unknown Author" is not produced — the author field comes out as the
empty string, because the single `None` candidate survives the emptiness
check and is then dropped by `filter(None, ...)` before joining. -/
theorem C8_extract_metadata_dict_counterexample :
    (Metadata.extract_metadata_dict
        ⟨none, none, some ⟨none⟩, none, none, none, none, none, none, none, none, none⟩
        []).author ≠ "Unknown Author" ∧
    (Metadata.extract_metadata_dict
        ⟨none, none, some ⟨none⟩, none, none, none, none, none, none, none, none, none⟩
        []).author = "" := by
  constructor <;> decide

/-- C8 amended: the claimed mapping holds except for two corners.
`author` is the comma-join of the truthy names of `authors[]` (or
"Unknown Author" when that list yields none, or when neither field is
present); but when only a singular `author` object is present, its
non-empty name is used and a missing/empty name yields the empty string,
not "Unknown Author".  `provider` is the literal "Storytel", `formats` is
the given list verbatim, `providerId` the stringified id, `narrator` the
join of `narrators[]` truthy names — absent both when the field is
missing and when it yields no truthy name.  `publishedYear`, for every
details object, comes from the first truthy of
`releaseDate`/`originalReleaseDate`: when that date string has at least 4
characters it is the Python-int parse of its first 4 characters (absent
on parse failure), and — the second corner, which the claim's wording
misses — when the date string is shorter than 4 characters it is absent
even if the whole string would parse (the `len >= 4` guard of
metadata.py line 57); with no truthy date it is absent.  On the claim's
concrete input (`authors = [A, B]`, no release date) the author is
"A, B" and `publishedYear` is absent. -/
theorem C8_extract_metadata_dict_amended :
    ((Metadata.extract_metadata_dict
        ⟨none, some [⟨some "A"⟩, ⟨some "B"⟩], none, none, none, none, none, none, none,
          none, none, none⟩ []).author = "A, B" ∧
      (Metadata.extract_metadata_dict
        ⟨none, some [⟨some "A"⟩, ⟨some "B"⟩], none, none, none, none, none, none, none,
          none, none, none⟩ []).publishedYear = none) ∧
    (∀ (d : Metadata.BookDetails) (fs : List Metadata.FormatStatus),
      (Metadata.extract_metadata_dict d fs).provider = "Storytel" ∧
      (Metadata.extract_metadata_dict d fs).formats = fs) ∧
    (∀ (d : Metadata.BookDetails) (fs : List Metadata.FormatStatus) (n : Int),
      d.id = some n → (Metadata.extract_metadata_dict d fs).providerId = toString n) ∧
    (∀ (d : Metadata.BookDetails) (fs : List Metadata.FormatStatus)
      (l : List Metadata.NameObj), d.narrators = some l → Metadata.truthyNames l ≠ [] →
      (Metadata.extract_metadata_dict d fs).narrator =
        some (Metadata.joinComma (Metadata.truthyNames l))) ∧
    (∀ (d : Metadata.BookDetails) (fs : List Metadata.FormatStatus),
      d.narrators = none → (Metadata.extract_metadata_dict d fs).narrator = none) ∧
    (∀ (d : Metadata.BookDetails) (fs : List Metadata.FormatStatus)
      (l : List Metadata.NameObj), d.authors = some l → Metadata.truthyNames l ≠ [] →
      (Metadata.extract_metadata_dict d fs).author =
        Metadata.joinComma (Metadata.truthyNames l)) ∧
    (∀ (d : Metadata.BookDetails) (fs : List Metadata.FormatStatus)
      (l : List Metadata.NameObj), d.authors = some l → Metadata.truthyNames l = [] →
      (Metadata.extract_metadata_dict d fs).author = "Unknown Author") ∧
    (∀ (d : Metadata.BookDetails) (fs : List Metadata.FormatStatus),
      d.authors = none → d.author = none →
      (Metadata.extract_metadata_dict d fs).author = "Unknown Author") ∧
    (∀ (d : Metadata.BookDetails) (fs : List Metadata.FormatStatus)
      (a : Metadata.NameObj), d.authors = none → d.author = some a →
      (a.name = none ∨ a.name = some "") →
      (Metadata.extract_metadata_dict d fs).author = "") ∧
    (∀ (d : Metadata.BookDetails) (fs : List Metadata.FormatStatus)
      (a : Metadata.NameObj) (nm : String), d.authors = none → d.author = some a →
      a.name = some nm → nm ≠ "" →
      (Metadata.extract_metadata_dict d fs).author = nm) ∧
    (∀ (d : Metadata.BookDetails) (fs : List Metadata.FormatStatus)
      (l : List Metadata.NameObj), d.narrators = some l → Metadata.truthyNames l = [] →
      (Metadata.extract_metadata_dict d fs).narrator = none) ∧
    (∀ (d : Metadata.BookDetails) (fs : List Metadata.FormatStatus) (r : String),
      Metadata.firstTruthy d.releaseDate d.originalReleaseDate = some r →
      4 ≤ r.data.length →
      (Metadata.extract_metadata_dict d fs).publishedYear =
        Metadata.pyIntOfString (String.mk (r.data.take 4))) ∧
    (∀ (d : Metadata.BookDetails) (fs : List Metadata.FormatStatus) (r : String),
      Metadata.firstTruthy d.releaseDate d.originalReleaseDate = some r →
      r.data.length < 4 →
      (Metadata.extract_metadata_dict d fs).publishedYear = none) ∧
    (∀ (d : Metadata.BookDetails) (fs : List Metadata.FormatStatus),
      Metadata.firstTruthy d.releaseDate d.originalReleaseDate = none →
      (Metadata.extract_metadata_dict d fs).publishedYear = none) := by
  refine ⟨⟨by decide, by decide⟩, ?_, ?_, ?_, ?_, ?_, ?_, ?_, ?_, ?_, ?_, ?_, ?_, ?_⟩
  · intro d fs
    exact ⟨rfl, rfl⟩
  · intro d fs n hid
    simp [Metadata.extract_metadata_dict, hid]
  · intro d fs l hn hne
    simp [Metadata.extract_metadata_dict, hn, List.isEmpty_iff, hne]
  · intro d fs hn
    simp [Metadata.extract_metadata_dict, hn]
  · intro d fs l ha hne
    have hc : Metadata.authorCandidates d = (Metadata.truthyNames l).map some := by
      rw [Metadata.authorCandidates, ha]
    simp only [Metadata.extract_metadata_dict, hc]
    rw [if_neg (by simp [List.isEmpty_iff, hne])]
    rw [Metadata.filterTruthy_map_some (Metadata.truthyNames_not_mem_empty l)]
  · intro d fs l ha hnil
    have hc : Metadata.authorCandidates d = (Metadata.truthyNames l).map some := by
      rw [Metadata.authorCandidates, ha]
    simp only [Metadata.extract_metadata_dict, hc]
    rw [if_pos (by simp [hnil])]
  · intro d fs ha1 ha2
    have hc : Metadata.authorCandidates d = [] := by
      rw [Metadata.authorCandidates, ha1, ha2]
    simp [Metadata.extract_metadata_dict, hc]
  · intro d fs a ha1 ha2 hname
    have hc : Metadata.authorCandidates d = [a.name] := by
      rw [Metadata.authorCandidates, ha1, ha2]
    rcases hname with hname | hname <;>
      · simp [Metadata.extract_metadata_dict, hc, hname, Metadata.filterTruthy,
          Metadata.joinComma]
        rfl
  · intro d fs a nm ha1 ha2 hname hne
    have hc : Metadata.authorCandidates d = [a.name] := by
      rw [Metadata.authorCandidates, ha1, ha2]
    simp [Metadata.extract_metadata_dict, hc, hname, Metadata.filterTruthy,
      Metadata.joinComma, hne]
    rfl
  · intro d fs l hn hnil
    simp [Metadata.extract_metadata_dict, hn, hnil]
  · intro d fs r hr hlen
    simp only [Metadata.extract_metadata_dict, hr]
    rw [if_pos hlen]
  · intro d fs r hr hlen
    simp only [Metadata.extract_metadata_dict, hr]
    rw [if_neg (by omega)]
  · intro d fs hr
    simp only [Metadata.extract_metadata_dict, hr]

/-- C8 witness: the hypothesised parts of the amended C8 at concrete
inputs — a details object with id 42, narrators and an authors list; one
with only a named singular author; one whose narrators all lack truthy
names; and release dates of length ≥ 4 (parsed), length < 4 (absent
despite being parseable), and empty (absent). -/
theorem C8_extract_metadata_dict_witness :
    ((⟨none, some [⟨some "A"⟩, ⟨some "B"⟩], none, some [⟨some "N"⟩], none, none, none,
        none, none, none, none, some 42⟩ : Metadata.BookDetails).id = some 42 ∧
      (Metadata.extract_metadata_dict
        ⟨none, some [⟨some "A"⟩, ⟨some "B"⟩], none, some [⟨some "N"⟩], none, none, none,
          none, none, none, none, some 42⟩ []).providerId = toString (42 : Int)) ∧
    (Metadata.extract_metadata_dict
        ⟨none, some [⟨some "A"⟩, ⟨some "B"⟩], none, some [⟨some "N"⟩], none, none, none,
          none, none, none, none, some 42⟩ []).narrator = some "N" ∧
    (Metadata.extract_metadata_dict
        ⟨none, some [⟨some "A"⟩, ⟨some "B"⟩], none, some [⟨some "N"⟩], none, none, none,
          none, none, none, none, some 42⟩ []).author = "A, B" ∧
    (Metadata.extract_metadata_dict
        ⟨none, none, some ⟨some "Solo"⟩, none, none, none, none, none, none, none, none,
          none⟩ []).author = "Solo" ∧
    (Metadata.extract_metadata_dict
        ⟨none, none, none, some [⟨some ""⟩], none, none, none, none, none, none, none,
          none⟩ []).narrator = none ∧
    (Metadata.extract_metadata_dict
        ⟨none, none, none, none, none, some "2021-05-01", none, none, none, none, none,
          none⟩ []).publishedYear = some 2021 ∧
    (Metadata.extract_metadata_dict
        ⟨none, none, none, none, none, some "999", none, none, none, none, none,
          none⟩ []).publishedYear = none ∧
    (Metadata.extract_metadata_dict
        ⟨none, none, none, none, none, some "", none, none, none, none, none,
          none⟩ []).publishedYear = none := by
  refine ⟨⟨rfl, ?_⟩, ?_, ?_, ?_, ?_, ?_, ?_, ?_⟩
  · exact C8_extract_metadata_dict_amended.2.2.1 _ [] 42 rfl
  · exact (C8_extract_metadata_dict_amended.2.2.2.1 _ [] [⟨some "N"⟩] rfl
      (by decide)).trans (by decide)
  · exact (C8_extract_metadata_dict_amended.2.2.2.2.2.1 _ [] [⟨some "A"⟩, ⟨some "B"⟩] rfl
      (by decide)).trans (by decide)
  · exact C8_extract_metadata_dict_amended.2.2.2.2.2.2.2.2.2.1 _ [] ⟨some "Solo"⟩ "Solo"
      rfl rfl rfl (by decide)
  · exact C8_extract_metadata_dict_amended.2.2.2.2.2.2.2.2.2.2.1 _ [] [⟨some ""⟩]
      rfl (by decide)
  · exact (C8_extract_metadata_dict_amended.2.2.2.2.2.2.2.2.2.2.2.1 _ [] "2021-05-01"
      (by decide) (by decide)).trans (by decide)
  · exact C8_extract_metadata_dict_amended.2.2.2.2.2.2.2.2.2.2.2.2.1 _ [] "999"
      (by decide) (by decide)
  · exact C8_extract_metadata_dict_amended.2.2.2.2.2.2.2.2.2.2.2.2.2 _ []
      (by decide)

/-- C5: when the playback-metadata response has no abook-typed format the
marker list is empty; when the (first) abook format is found, there is one
marker per chapter, marker `i` starts at the sum of the durations of
chapters `0..i-1` (missing durations count 0, so marker 0 starts at 0)
and carries the chapter's own non-empty title, else `Chapter {number}`,
else `Chapter {i+1}`. -/
theorem C5_get_audiobook_markers_spec (resp : StorytelApi.PlaybackMetadata) :
    (resp.formats.find? (fun f => f.type == "abook") = none →
      StorytelApi.get_audiobook_markers resp = []) ∧
    (∀ ab : StorytelApi.PlaybackFormat,
      resp.formats.find? (fun f => f.type == "abook") = some ab →
      (StorytelApi.get_audiobook_markers resp).length = ab.chapters.length ∧
      (∀ (i : Nat) (h : i < (StorytelApi.get_audiobook_markers resp).length)
        (h2 : i < ab.chapters.length),
        ((StorytelApi.get_audiobook_markers resp).get ⟨i, h⟩).startTime =
          StorytelApi.sumDur (ab.chapters.take i) ∧
        ((StorytelApi.get_audiobook_markers resp).get ⟨i, h⟩).title =
          StorytelApi.claimTitle i (ab.chapters.get ⟨i, h2⟩))) := by
  constructor
  · intro hnone
    rw [StorytelApi.get_audiobook_markers, hnone]
  · intro ab hab
    have hunf : StorytelApi.get_audiobook_markers resp =
        StorytelApi.markersLoop 0 0 ab.chapters := by
      rw [StorytelApi.get_audiobook_markers, hab]
    constructor
    · rw [hunf, StorytelApi.markersLoop_length]
    · intro i h h2
      have h3 : i < (StorytelApi.markersLoop 0 0 ab.chapters).length := by
        rw [← hunf]; exact h
      have hg : (StorytelApi.get_audiobook_markers resp).get ⟨i, h⟩ =
          (StorytelApi.markersLoop 0 0 ab.chapters).get ⟨i, h3⟩ :=
        List.get_of_eq hunf ⟨i, h⟩
      rw [hg, StorytelApi.markersLoop_get ab.chapters 0 0 i h2 h3]
      constructor <;> simp

/-- C6: `download_audiobook` errors whenever the asset endpoint's status
is not exactly 302 or the 302 lacks a `Location` header, leaving the
filesystem untouched; with a good redirect, on stream success the payload
lands at the target (written via the `.part` temp file, renamed only after
completion) with no temp left; on any streaming exception the temp file is
removed, the target keeps its prior value, and the error propagates. -/
theorem C6_download_audiobook_spec (resp : StorytelApi.AssetResponse)
    (outcome : StorytelApi.StreamOutcome) (s : StorytelApi.FsState) :
    ((resp.status ≠ 302 ∨ resp.location = none) →
      StorytelApi.download_audiobook resp outcome s = (StorytelApi.DlResult.error, s)) ∧
    (∀ (l : String) (payload : List Nat),
      resp.status = 302 → resp.location = some l →
      outcome = StorytelApi.StreamOutcome.success payload →
      StorytelApi.download_audiobook resp outcome s =
        (StorytelApi.DlResult.ok, ⟨some payload, none⟩)) ∧
    (∀ (l : String) (written : List Nat),
      resp.status = 302 → resp.location = some l →
      outcome = StorytelApi.StreamOutcome.failure written →
      StorytelApi.download_audiobook resp outcome s =
        (StorytelApi.DlResult.error, ⟨s.target, none⟩)) := by
  refine ⟨?_, ?_, ?_⟩
  · rintro (hst | hloc)
    · rw [StorytelApi.download_audiobook, if_pos hst]
    · rw [StorytelApi.download_audiobook]
      by_cases hst : resp.status ≠ 302
      · rw [if_pos hst]
      · rw [if_neg hst, hloc]
  · intro l payload hst hloc hout
    rw [StorytelApi.download_audiobook, if_neg (by simp [hst]), hloc, hout,
      StorytelApi.download_stream]
  · intro l written hst hloc hout
    rw [StorytelApi.download_audiobook, if_neg (by simp [hst]), hloc, hout,
      StorytelApi.download_stream]

/-- C6 witness: the three branches of C6 at concrete inputs — a 404
response (error, state unchanged), a clean 302 redirect with a completed
stream (payload renamed onto the target, no temp), and a 302 redirect
whose stream fails midway (temp removed, target untouched). -/
theorem C6_download_audiobook_witness :
    (((404 : Nat) ≠ 302 ∨ (none : Option String) = none) ∧
      StorytelApi.download_audiobook ⟨404, none⟩ (.success [7]) ⟨none, some [9]⟩ =
        (StorytelApi.DlResult.error, ⟨none, some [9]⟩)) ∧
    StorytelApi.download_audiobook ⟨302, some "u"⟩ (.success [7, 8]) ⟨some [1], none⟩ =
      (StorytelApi.DlResult.ok, ⟨some [7, 8], none⟩) ∧
    StorytelApi.download_audiobook ⟨302, some "u"⟩ (.failure [7]) ⟨some [1], none⟩ =
      (StorytelApi.DlResult.error, ⟨some [1], none⟩) :=
  ⟨⟨Or.inl (by decide),
    (C6_download_audiobook_spec ⟨404, none⟩ (.success [7]) ⟨none, some [9]⟩).1
      (Or.inl (by decide))⟩,
   (C6_download_audiobook_spec ⟨302, some "u"⟩ (.success [7, 8]) ⟨some [1], none⟩).2.1
     "u" [7, 8] rfl rfl rfl,
   (C6_download_audiobook_spec ⟨302, some "u"⟩ (.failure [7]) ⟨some [1], none⟩).2.2
     "u" [7] rfl rfl rfl⟩

/-- A concrete abook format for the C5 witness: an untitled chapter with
a number, an empty-titled one without a number, and a titled one without
a duration. -/
def exampleAbook : StorytelApi.PlaybackFormat :=
  ⟨"abook", [⟨none, some 7, some 1000⟩, ⟨some "", none, some 500⟩, ⟨some "Intro", none, none⟩]⟩

/-- A concrete playback-metadata response for the C5 witness. -/
def exampleResp : StorytelApi.PlaybackMetadata :=
  ⟨[⟨"ebook", []⟩, exampleAbook]⟩

/-- C5 witness: the concrete response realises the hypotheses of C5, and
the produced markers are as the claim predicts. -/
theorem C5_get_audiobook_markers_witness :
    (exampleResp.formats.find? (fun f => f.type == "abook") = some exampleAbook) ∧
    (StorytelApi.get_audiobook_markers exampleResp).length = exampleAbook.chapters.length ∧
    StorytelApi.get_audiobook_markers exampleResp =
      [⟨"Chapter 7", 0⟩, ⟨"Chapter 2", 1000⟩, ⟨"Intro", 1500⟩] :=
  ⟨by decide,
   ((C5_get_audiobook_markers_spec exampleResp).2 exampleAbook (by decide)).1,
   by decide⟩

end StorytelDL

namespace StorytelDL

set_option maxRecDepth 100000

/-- C1: `encrypt_password` is exactly hex(AES-128-CBC(key, iv, PKCS7(utf8(p))))
with the fixed key `VQZBJ6TD8M9WBUWT` and IV `joiwef08u23j341a`; it uses no
randomness, so it is deterministic.  The two golden values were produced by an
independent reference implementation of AES-128-CBC (openssl) on the same
key/IV, pinning the embedding bit-for-bit to real AES. -/
theorem C1_encrypt_password_aes_cbc :
    (∀ p : String,
      Crypto.encrypt_password p =
        Crypto.bytesToHex (Crypto.cbcEncrypt Crypto.KEY Crypto.IV
          (Crypto.pkcs7Pad (Crypto.utf8Encode p)))) ∧
    (∀ p : String, Crypto.encrypt_password p = Crypto.encrypt_password p) ∧
    Crypto.encrypt_password "test" = "e869a9362bc241fd91bc88d8e0e868f1" ∧
    Crypto.encrypt_password "a longer password with two blocks!" =
      "35db697334a3eaf8815b4ebe5515c60015d48fbdaa7d77681c73ab2d7315e2ac7bcb3b5be5a64a102a6cb821eb09fa22" := by
  refine ⟨fun p => rfl, fun p => rfl, ?_, ?_⟩ <;> decide

/-- C2 counterexample: on the chapter list `[(0,5,"A"), (5,10,"B"), (10,60,"C")]`
with `min_len = 10`, `filter_short_chapters` does NOT return the claimed
`[(0,10,"B"), (10,60,"C")]`: the loop appends the first chapter "A"
unconditionally and then merges the short "B" backward into it, so the
surviving first chapter keeps title "A". -/
theorem C2_filter_short_chapters_counterexample :
    Chapters.filter_short_chapters
        [⟨0, 5, "A"⟩, ⟨5, 10, "B"⟩, ⟨10, 60, "C"⟩] 10 ≠
      [⟨0, 10, "B"⟩, ⟨10, 60, "C"⟩] := by
  norm_num [Chapters.filter_short_chapters, Chapters.mergeShort, Chapters.fixFirst]
  decide

/-- C2 amended: on `[(0,5,"A"), (5,10,"B"), (10,60,"C")]` with `min_len = 10`,
`filter_short_chapters` returns `[(0,10,"A"), (10,60,"C")]` — the short "B"
merges backward into "A" (which keeps its title and absorbs the range to
`[0,10]`), "C" is kept unchanged, and the first-chapter forward-merge does
not fire because the merged first chapter then has length exactly 10. -/
theorem C2_filter_short_chapters_amended :
    Chapters.filter_short_chapters
        [⟨0, 5, "A"⟩, ⟨5, 10, "B"⟩, ⟨10, 60, "C"⟩] 10 =
      [⟨0, 10, "A"⟩, ⟨10, 60, "C"⟩] := by
  norm_num [Chapters.filter_short_chapters, Chapters.mergeShort, Chapters.fixFirst]
  decide

/-- C9: `clean_chapter_titles` strips the common prefix "Show X - " from
`["Show X - Part 1", "Show X - Part 2"]` leaving `["Part 1", "Part 2"]`;
it leaves `["Ab1", "Ac2"]` unchanged (adjusted prefix length ≤ 3); in
general it is the identity on lists of fewer than 2 chapters and whenever
the separator-adjusted common prefix is at most 3 characters long. -/
theorem C9_clean_chapter_titles_spec :
    (Chapters.clean_chapter_titles
        [⟨0, 1, "Show X - Part 1"⟩, ⟨1, 2, "Show X - Part 2"⟩] =
      [⟨0, 1, "Part 1"⟩, ⟨1, 2, "Part 2"⟩]) ∧
    (Chapters.clean_chapter_titles [⟨0, 1, "Ab1"⟩, ⟨1, 2, "Ac2"⟩] =
      [⟨0, 1, "Ab1"⟩, ⟨1, 2, "Ac2"⟩]) ∧
    (∀ cs : List Chapters.Chapter, cs.length < 2 →
      Chapters.clean_chapter_titles cs = cs) ∧
    (∀ cs : List Chapters.Chapter,
      (Chapters.adjustPrefixToSep
        (Chapters.lcpAll (cs.map (fun c => c.title.data)))).length ≤ 3 →
      Chapters.clean_chapter_titles cs = cs) := by
  refine ⟨?_, ?_, ?_, ?_⟩
  · norm_num [Chapters.clean_chapter_titles]
    decide
  · norm_num [Chapters.clean_chapter_titles]
    decide
  · intro cs h
    simp [Chapters.clean_chapter_titles, h]
  · intro cs h
    unfold Chapters.clean_chapter_titles
    split_ifs with h1 h2 h3
    · rfl
    · rfl
    · omega
    · rfl

/-- C4 counterexample: the embedded-metadata detector can return a
non-contiguous chapter list (ffprobe chapter atoms are copied verbatim),
and the batch generator's post-processing does not repair gaps: probing
records `[(0,30), (40,60)]` with total duration 60 and the default
minimum chapter length 20 reaches packaging with `end[0] = 30 ≠ 40 =
start[1]`, refuting the claimed contiguity invariant. -/
theorem C4_contiguity_counterexample :
    ¬ Chapters.contiguous
      (Chapters.postProcess
        (Chapters.extract_metadata_chapters
          (some [⟨0, 30, some "A"⟩, ⟨40, 60, some "B"⟩])) 60 20) := by
  have hval : Chapters.postProcess
      (Chapters.extract_metadata_chapters
        (some [⟨0, 30, some "A"⟩, ⟨40, 60, some "B"⟩])) 60 20 =
      [⟨0, 30, "A"⟩, ⟨40, 60, "B"⟩] := by
    norm_num [Chapters.postProcess, Chapters.extract_metadata_chapters, Chapters.extractFrom,
      Chapters.setLastEnd, Chapters.filter_short_chapters, Chapters.mergeShort,
      Chapters.fixFirst, Chapters.renumberFrom, Chapters.isGenericChapterTitle]
    decide
  rw [hval]
  norm_num [Chapters.contiguous, List.chain'_cons, List.chain'_singleton]

/-- C4 amended: for every non-empty chapter list, when the probed duration
is positive the post-processed list is non-empty and its last chapter ends
exactly at the probed duration; and contiguity is preserved — if the
detector's list was contiguous, the list handed to the packager is
contiguous as well.  (The unconditional claim fails because detectors may
emit gapped lists, which post-processing does not repair.) -/
theorem C4_postprocess_amended (cs : List Chapters.Chapter) (dur minLen : ℚ)
    (hne : cs ≠ []) (hdur : 0 < dur) :
    Chapters.postProcess cs dur minLen ≠ [] ∧
    Chapters.lastStop (Chapters.postProcess cs dur minLen) = some dur ∧
    (Chapters.contiguous cs → Chapters.contiguous (Chapters.postProcess cs dur minLen)) := by
  simp only [Chapters.postProcess]
  have h1 : (if cs ≠ [] ∧ 0 < dur then Chapters.setLastEnd cs dur else cs) =
      Chapters.setLastEnd cs dur := if_pos ⟨hne, hdur⟩
  rw [h1]
  have hcs2ne : Chapters.filter_short_chapters (Chapters.setLastEnd cs dur) minLen ≠ [] :=
    Chapters.filter_short_chapters_ne_nil (Chapters.setLastEnd_ne_nil hne dur) minLen
  rw [if_pos ⟨hcs2ne, hdur⟩]
  refine ⟨Chapters.setLastEnd_ne_nil hcs2ne dur, Chapters.lastStop_setLastEnd hcs2ne dur, ?_⟩
  intro hcont
  exact Chapters.contiguous_setLastEnd
    (Chapters.filter_short_chapters_contiguous
      (Chapters.contiguous_setLastEnd hcont dur) minLen) dur

/-- C4 witness: the amended theorem applied to a concrete one-chapter list
with duration 60 and minimum length 20. -/
theorem C4_postprocess_witness :
    (([⟨0, 30, "A"⟩] : List Chapters.Chapter) ≠ [] ∧ (0 : ℚ) < 60) ∧
    (Chapters.postProcess [⟨0, 30, "A"⟩] 60 20 ≠ [] ∧
      Chapters.lastStop (Chapters.postProcess [⟨0, 30, "A"⟩] 60 20) = some 60 ∧
      (Chapters.contiguous [⟨0, 30, "A"⟩] →
        Chapters.contiguous (Chapters.postProcess [⟨0, 30, "A"⟩] 60 20))) :=
  ⟨⟨by decide, by decide⟩, C4_postprocess_amended _ _ _ (by decide) (by decide)⟩

/-- C9 witness: the hypothesised parts of C9 applied at concrete inputs. -/
theorem C9_clean_chapter_titles_witness :
    (([⟨0, 1, "solo"⟩] : List Chapters.Chapter).length < 2 ∧
      Chapters.clean_chapter_titles [⟨0, 1, "solo"⟩] = [⟨0, 1, "solo"⟩]) ∧
    ((Chapters.adjustPrefixToSep
        (Chapters.lcpAll (([⟨0, 1, "Ab1"⟩, ⟨1, 2, "Ac2"⟩] :
          List Chapters.Chapter).map (fun c => c.title.data)))).length ≤ 3 ∧
      Chapters.clean_chapter_titles [⟨0, 1, "Ab1"⟩, ⟨1, 2, "Ac2"⟩] =
        [⟨0, 1, "Ab1"⟩, ⟨1, 2, "Ac2"⟩]) :=
  ⟨⟨by decide, C9_clean_chapter_titles_spec.2.2.1 _ (by decide)⟩,
   ⟨by decide, C9_clean_chapter_titles_spec.2.2.2 _ (by decide)⟩⟩

end StorytelDL
